import Mathlib

/- Verification development for the multi-page review scraper
   `multi_scraper.py`.  The file models, as executable Lean functions,
   the parts of Python's `urllib.parse` library that the script calls
   (`urlparse`, `urljoin`, `parse_qs`, `urlencode`, `urlunparse`), an
   abstract document/selector interface standing for BeautifulSoup, and
   the script's own functions (`parse_rating`, `parse_reviews`,
   `find_next_url`, the `fetch` retry loop, the online driver loop and
   the offline source-URL synthesis).  Theorems at the end settle the
   specified properties.  Strings are processed as `List Char`; machine
   details that cannot arise on the inputs considered (IPv6 bracket
   validation, non-ASCII case folding in `int`) are noted where the
   corresponding function is defined. -/

namespace MultiScraper

/-! ### Character-list utilities -/

/-- Split at the first occurrence of `c`, returning the parts before and
after it, or `none` when `c` does not occur. -/
def splitFirst (c : Char) : List Char → Option (List Char × List Char)
  | [] => none
  | x :: xs =>
    if x = c then some ([], xs)
    else (splitFirst c xs).map (fun p => (x :: p.1, p.2))

/-- Split at the last occurrence of `c` (parts before and after it). -/
def splitLast (c : Char) (l : List Char) : Option (List Char × List Char) :=
  (splitFirst c l.reverse).map (fun p => (p.2.reverse, p.1.reverse))

/-- Python `str.split(c)`: always returns at least one (possibly empty)
piece. -/
def splitAll (c : Char) : List Char → List (List Char)
  | [] => [[]]
  | x :: xs =>
    if x = c then [] :: splitAll c xs
    else
      match splitAll c xs with
      | h :: t => (x :: h) :: t
      | [] => [[x]]

/-- Join pieces with a separator (Python `sep.join`). -/
def joinSep (sep : List Char) : List (List Char) → List Char
  | [] => []
  | [x] => x
  | x :: xs => x ++ sep ++ joinSep sep xs

/-- Take characters until one of `stops` is hit; returns the taken part
and the remainder beginning with the stop character. -/
def takeUntilAny (stops : List Char) : List Char → List Char × List Char
  | [] => ([], [])
  | c :: cs =>
    if stops.contains c then ([], c :: cs)
    else
      let p := takeUntilAny stops cs
      (c :: p.1, p.2)

/-- Prefix test on character lists. -/
def listIsPrefix : List Char → List Char → Bool
  | [], _ => true
  | _ :: _, [] => false
  | a :: as, b :: bs => a = b && listIsPrefix as bs

/-- Infix test on character lists. -/
def listIsInfix (pat : List Char) : List Char → Bool
  | [] => pat = []
  | b :: bs => listIsPrefix pat (b :: bs) || listIsInfix pat bs

/-- Python substring test (`pat in s`). -/
def strContains (s pat : String) : Bool :=
  listIsInfix pat.data s.data

/-- Strip ASCII whitespace from both ends. -/
def stripWs (l : List Char) : List Char :=
  ((l.dropWhile Char.isWhitespace).reverse.dropWhile Char.isWhitespace).reverse

/-- Value of a list of ASCII digits. -/
def digitsToNatAux (acc : ℕ) : List Char → ℕ
  | [] => acc
  | c :: cs => digitsToNatAux (acc * 10 + (c.toNat - 48)) cs

def digitsToNat (l : List Char) : ℕ := digitsToNatAux 0 l

/-- After an initial digit: the remaining digits of a Python integer
literal, where single underscores may separate digits. -/
def undRest : List Char → Option (List Char)
  | [] => some []
  | '_' :: rest =>
    match rest with
    | [] => none
    | c :: cs => if c.isDigit then (undRest cs).map (fun r => c :: r) else none
  | c :: cs => if c.isDigit then (undRest cs).map (fun r => c :: r) else none

/-- A nonempty digit string in Python `int` syntax (underscores allowed
between digits); returns the digits with underscores removed. -/
def digitsClean : List Char → Option (List Char)
  | [] => none
  | c :: cs => if c.isDigit then (undRest cs).map (fun r => c :: r) else none

/-- Model of Python `int(s)` on an ASCII string: optional surrounding
whitespace, optional sign, digits with optional underscore separators;
`none` models the `ValueError` raised otherwise.  (Unicode digits and
whitespace, accepted by CPython, are not modelled.) -/
def pythonIntOf (l : List Char) : Option ℤ :=
  match stripWs l with
  | '+' :: rest => (digitsClean rest).map (fun ds => (digitsToNat ds : ℤ))
  | '-' :: rest => (digitsClean rest).map (fun ds => -(digitsToNat ds : ℤ))
  | rest => (digitsClean rest).map (fun ds => (digitsToNat ds : ℤ))

def pythonInt (s : String) : Option ℤ := pythonIntOf s.data

/-! ### urllib.parse model -/

/-- Result of Python `urlparse`. -/
structure UrlParts where
  scheme : String
  netloc : String
  path : String
  params : String
  query : String
  fragment : String
deriving DecidableEq

/-- Characters allowed after the first character of a URL scheme. -/
def schemeChar (c : Char) : Bool :=
  c.isAlphanum || c = '+' || c = '-' || c = '.'

/-- Scheme detection of `urlsplit`: the text before the first `:` must be
nonempty, start with an ASCII letter and consist of scheme characters;
otherwise the default scheme is kept and the URL is unchanged. -/
def splitScheme (l : List Char) (dflt : String) : String × List Char :=
  match splitFirst ':' l with
  | none => (dflt, l)
  | some (before, after) =>
    match before with
    | [] => (dflt, l)
    | c :: cs =>
      if c.isAlpha && cs.all schemeChar then
        (String.mk ((c :: cs).map Char.toLower), after)
      else (dflt, l)

/-- Model of `urllib.parse.urlsplit` (the IPv6 bracket `ValueError` is
not modelled; inputs considered contain no brackets). -/
def urlsplitChars (l0 : List Char) (dflt : String) : UrlParts :=
  let l := l0.filter (fun c => !(c = '\t' || c = '\r' || c = '\n'))
  let sp := splitScheme l dflt
  let scheme := sp.1
  let nl :=
    match sp.2 with
    | '/' :: '/' :: rest => takeUntilAny ['/', '?', '#'] rest
    | other => ([], other)
  let fr :=
    match splitFirst '#' nl.2 with
    | some p => (p.1, p.2)
    | none => (nl.2, [])
  let qy :=
    match splitFirst '?' fr.1 with
    | some p => (p.1, p.2)
    | none => (fr.1, [])
  { scheme := scheme, netloc := String.mk nl.1, path := String.mk qy.1,
    params := "", query := String.mk qy.2, fragment := String.mk fr.2 }

/-- `_splitparams`: split `;params` off the last path segment. -/
def splitParamsChars (l : List Char) : List Char × List Char :=
  if l.contains ';' then
    match splitLast '/' l with
    | some (before, after) =>
      match splitFirst ';' after with
      | some (a, b) => (before ++ '/' :: a, b)
      | none => (l, [])
    | none =>
      match splitFirst ';' l with
      | some (a, b) => (a, b)
      | none => (l, [])
  else (l, [])

/-- Model of `urllib.parse.urlparse` with a default scheme. -/
def urlparse (url : String) (dflt : String) : UrlParts :=
  let base := urlsplitChars url.data dflt
  let pp := splitParamsChars base.path.data
  { base with path := String.mk pp.1, params := String.mk pp.2 }

/-- Model of `urllib.parse.urlunsplit`. -/
def urlunsplit (scheme netloc path query fragment : String) : String :=
  let u0 := path.data
  let u1 :=
    if netloc ≠ "" ∨ u0.take 2 = ['/', '/'] then
      ('/' :: '/' :: netloc.data) ++
        (if u0 ≠ [] ∧ u0.head? ≠ some '/' then '/' :: u0 else u0)
    else u0
  let u2 := if scheme ≠ "" then scheme.data ++ ':' :: u1 else u1
  let u3 := if query ≠ "" then u2 ++ '?' :: query.data else u2
  let u4 := if fragment ≠ "" then u3 ++ '#' :: fragment.data else u3
  String.mk u4

/-- Model of `urllib.parse.urlunparse`. -/
def urlunparse (p : UrlParts) : String :=
  let path := if p.params ≠ "" then p.path ++ ";" ++ p.params else p.path
  urlunsplit p.scheme p.netloc path p.query p.fragment

def uses_relative : List String :=
  ["", "ftp", "http", "gopher", "nntp", "imap", "wais", "file", "https",
   "shttp", "mms", "prospero", "rtsp", "rtspu", "sftp", "svn", "svn+ssh",
   "ws", "wss"]

def uses_netloc : List String :=
  ["", "ftp", "http", "gopher", "nntp", "telnet", "imap", "wais", "file",
   "mms", "https", "shttp", "snews", "prospero", "rtsp", "rtspu", "rsync",
   "svn", "svn+ssh", "sftp", "nfs", "git", "git+ssh", "ws", "wss"]

/-- Keep the first and last element, dropping empty middle pieces
(`segments[1:-1] = filter(None, segments[1:-1])`): tail part. -/
def filterMidTail : List (List Char) → List (List Char)
  | [] => []
  | [a] => [a]
  | a :: rest => if a = [] then filterMidTail rest else a :: filterMidTail rest

def filterMid : List (List Char) → List (List Char)
  | [] => []
  | [a] => [a]
  | a :: rest => a :: filterMidTail rest

/-- Dot-segment resolution loop of `urljoin`. -/
def resolveSegs (segs : List (List Char)) : List (List Char) :=
  segs.foldl
    (fun acc seg =>
      if seg = ['.', '.'] then acc.dropLast
      else if seg = ['.'] then acc
      else acc ++ [seg]) []

/-- Model of `urllib.parse.urljoin`. -/
def urljoin (base url : String) : String :=
  if base = "" then url
  else if url = "" then base
  else
    let b := urlparse base ""
    let u := urlparse url b.scheme
    if u.scheme ≠ b.scheme ∨ ¬ uses_relative.contains u.scheme then url
    else
      if uses_netloc.contains u.scheme ∧ u.netloc ≠ "" then urlunparse u
      else
        let netloc := if uses_netloc.contains u.scheme then b.netloc else u.netloc
        if u.path = "" ∧ u.params = "" then
          urlunparse
            { scheme := u.scheme, netloc := netloc, path := b.path,
              params := b.params,
              query := if u.query = "" then b.query else u.query,
              fragment := u.fragment }
        else
          let baseParts0 := splitAll '/' b.path.data
          let baseParts :=
            if baseParts0.getLast? ≠ some [] then baseParts0.dropLast else baseParts0
          let segments :=
            if u.path.data.head? = some '/' then splitAll '/' u.path.data
            else filterMid (baseParts ++ splitAll '/' u.path.data)
          let resolved0 := resolveSegs segments
          let resolved :=
            if segments.getLast? = some ['.'] ∨ segments.getLast? = some ['.', '.'] then
              resolved0 ++ [[]]
            else resolved0
          let joined := joinSep ['/'] resolved
          urlunparse
            { scheme := u.scheme, netloc := netloc,
              path := if joined = [] then "/" else String.mk joined,
              params := u.params, query := u.query, fragment := u.fragment }

/-! ### Query strings: parse_qs / urlencode -/

def hexVal (c : Char) : Option ℕ :=
  if c.isDigit then some (c.toNat - 48)
  else if 'a' ≤ c ∧ c ≤ 'f' then some (c.toNat - 87)
  else if 'A' ≤ c ∧ c ≤ 'F' then some (c.toNat - 55)
  else none

/-- Percent-decoding of `unquote` on ASCII escapes; malformed escapes are
left untouched.  (Multi-byte UTF-8 escapes, irrelevant to the inputs
considered, decode bytewise here.) -/
def pctDecode : List Char → List Char
  | [] => []
  | '%' :: a :: b :: rest =>
    match hexVal a, hexVal b with
    | some x, some y => Char.ofNat (16 * x + y) :: pctDecode rest
    | _, _ => '%' :: pctDecode (a :: b :: rest)
  | c :: rest => c :: pctDecode rest

/-- `unquote(s.replace('+', ' '))` as used by `parse_qsl`. -/
def unquotePlus (l : List Char) : List Char :=
  pctDecode (l.map (fun c => if c = '+' then ' ' else c))

/-- Model of `parse_qsl` with default arguments: empty fields, fields
without `=` and fields with empty values are skipped. -/
def parse_qsl (qs : List Char) : List (List Char × List Char) :=
  (splitAll '&' qs).filterMap
    (fun nv =>
      if nv = [] then none
      else
        match splitFirst '=' nv with
        | none => none
        | some (n, v) =>
          if v = [] then none else some (unquotePlus n, unquotePlus v))

/-- Insert a pair the way a Python dict of lists accumulates values:
append to an existing key's list, else append a new key at the end. -/
def insertPair (acc : List (String × List String)) (k v : String) :
    List (String × List String) :=
  if (acc.find? (fun p => p.1 = k)).isSome then
    acc.map (fun p => if p.1 = k then (p.1, p.2 ++ [v]) else p)
  else acc ++ [(k, [v])]

/-- Model of `urllib.parse.parse_qs`. -/
def parse_qs (qs : String) : List (String × List String) :=
  (parse_qsl qs.data).foldl
    (fun acc p => insertPair acc (String.mk p.1) (String.mk p.2)) []

/-- `dict.get`. -/
def dictGet (q : List (String × List String)) (k : String) : Option (List String) :=
  (q.find? (fun p => p.1 = k)).map (fun p => p.2)

/-- `dict.__setitem__`: replace in place when the key exists (its
position is kept), else append at the end. -/
def dictSet (q : List (String × List String)) (k : String) (v : List String) :
    List (String × List String) :=
  if (q.find? (fun p => p.1 = k)).isSome then
    q.map (fun p => if p.1 = k then (k, v) else p)
  else q ++ [(k, v)]

def hexDigit (n : ℕ) : Char :=
  if n < 10 then Char.ofNat (48 + n) else Char.ofNat (55 + n)

/-- UTF-8 bytes of a character. -/
def utf8Bytes (c : Char) : List ℕ :=
  let n := c.toNat
  if n < 128 then [n]
  else if n < 2048 then [192 + n / 64, 128 + n % 64]
  else if n < 65536 then
    [224 + n / 4096, 128 + (n / 64) % 64, 128 + n % 64]
  else
    [240 + n / 262144, 128 + (n / 4096) % 64, 128 + (n / 64) % 64, 128 + n % 64]

def pctEncodeByte (b : ℕ) : List Char :=
  ['%', hexDigit (b / 16), hexDigit (b % 16)]

/-- `quote_plus` with `safe=''`, per character. -/
def quotePlusChar (c : Char) : List Char :=
  if c = ' ' then ['+']
  else if c.isAlphanum ∨ c = '_' ∨ c = '.' ∨ c = '-' ∨ c = '~' then [c]
  else (utf8Bytes c).flatMap pctEncodeByte

def quote_plus (s : String) : String :=
  String.mk (s.data.flatMap quotePlusChar)

/-- Model of `urllib.parse.urlencode` on an association list (a Python
dict preserves insertion order). -/
def urlencode (q : List (String × String)) : String :=
  String.mk (joinSep ['&'] (q.map (fun p => (quote_plus p.1).data ++ '=' :: (quote_plus p.2).data)))

/-! ### Document model

BeautifulSoup documents are modelled abstractly.  A `Node` carries the
observations `parse_reviews` makes on a sub-node: its attributes,
`get_text(strip=True)` and `get_text(" ", strip=True)`.  A `Container`
is a review-card match of the container selector; its `selOne` function
stands for `tag.select_one` with a caller-supplied CSS selector string.
An `Elem` is a top-level element as seen by `find_next_url`: tag name,
attributes and the BeautifulSoup `.string` value used by the
`find_all("a", string=...)` filter.  A `Page` provides the document's
query interface: `select` for the container selector, `selectOneTop`
for the user-supplied next-page selector, and `elems`, the document's
elements in document order, over which the script's two hard-coded
queries (`a[rel='next'], link[rel='next']` and the anchor-text search)
are evaluated directly. -/

structure Node where
  attrs : List (String × String)
  textStrip : String
  textSpace : String

structure Container where
  selOne : String → Option Node

structure Elem where
  tag : String
  attrs : List (String × String)
  str : Option String

structure Page where
  select : String → List Container
  selectOneTop : String → Option Elem
  elems : List Elem

/-- Attribute lookup, `tag.get(key)`. -/
def attrGetN (n : Node) (k : String) : Option String :=
  (n.attrs.find? (fun p => p.1 = k)).map (fun p => p.2)

def attrGetE (e : Elem) (k : String) : Option String :=
  (e.attrs.find? (fun p => p.1 = k)).map (fun p => p.2)

/-- Python truthiness of an optional string: `None` and `""` are falsy. -/
def pyTruthy : Option String → Option String
  | none => none
  | some s => if s = "" then none else some s

def pyTruthyStrB : Option String → Bool
  | none => false
  | some s => if s = "" then false else true

def pyTruthyRat : Option ℚ → Bool
  | none => false
  | some q => if q = 0 then false else true

/-! ### Extraction (`parse_reviews` and helpers) -/

/-- Selector configuration built by `main`; an empty string means the
selector was not supplied. -/
structure Selectors where
  container : String
  reviewer : String
  rating : String
  date : String
  text : String

/-- The review record.  The Python `float` rating is modelled as the
exact rational value of the matched decimal literal (every value the
claims mention, e.g. `4.5`, is exactly representable as a float). -/
structure Review where
  reviewer : Option String
  rating : Option ℚ
  date : Option String
  text : Option String
  source_url : String
deriving DecidableEq

/-- `get_text_or_none`. -/
def get_text_or_none : Option Node → Option String
  | none => none
  | some n => if n.textStrip = "" then none else some n.textStrip

/-- First match of the regex `(\d+(?:\.\d+)?)`: leading digit run of the
match and the optional fractional digit run. -/
def takeDigits : List Char → List Char × List Char
  | [] => ([], [])
  | c :: cs =>
    if c.isDigit then
      let p := takeDigits cs
      (c :: p.1, p.2)
    else ([], c :: cs)

def firstNumber : List Char → Option (List Char × List Char)
  | [] => none
  | c :: cs =>
    if c.isDigit then
      let ip := takeDigits (c :: cs)
      match ip.2 with
      | '.' :: r2 =>
        let fp := takeDigits r2
        if fp.1 = [] then some (ip.1, []) else some (ip.1, fp.1)
      | _ => some (ip.1, [])
    else firstNumber cs

/-- Value of a decimal literal `ip.fp` as a rational. -/
def ratOfDecimal (ip fp : List Char) : ℚ :=
  ((digitsToNat ip * 10 ^ fp.length + digitsToNat fp : ℕ) : ℚ) / (10 : ℚ) ^ fp.length

/-- `parse_rating`: `None` and `""` give `None`; otherwise the first
decimal number in the text, if any.  (The `float` call in the source
cannot raise on a regex match, so the `except ValueError` branch is
dead.) -/
def parse_rating : Option String → Option ℚ
  | none => none
  | some v =>
    if v = "" then none
    else
      match firstNumber v.data with
      | none => none
      | some p => some (ratOfDecimal p.1 p.2)

/-- A text field: skipped entirely when its selector is empty. -/
def extractField (c : Container) (sel : String) : Option String :=
  if sel = "" then none else get_text_or_none (c.selOne sel)

/-- The raw rating text: `aria-label`, else `title`, else
`get_text(" ", strip=True)` (Python `or` chain on truthiness). -/
def ratingRaw (c : Container) (sel : String) : Option String :=
  if sel = "" then none
  else
    match c.selOne sel with
    | none => none
    | some n =>
      match pyTruthy (attrGetN n "aria-label") with
      | some s => some s
      | none =>
        match pyTruthy (attrGetN n "title") with
        | some s => some s
        | none => some n.textSpace

/-- All four fields of one container, with the page URL recorded. -/
def extractReview (sel : Selectors) (page_url : String) (c : Container) : Review :=
  { reviewer := extractField c sel.reviewer
    rating := parse_rating (ratingRaw c sel.rating)
    date := extractField c sel.date
    text := extractField c sel.text
    source_url := page_url }

/-- `any([reviewer, rating, date, text])`: Python truthiness, so a
rating of `0.0` does not count. -/
def reviewTruthy (r : Review) : Bool :=
  pyTruthyStrB r.reviewer || pyTruthyRat r.rating || pyTruthyStrB r.date ||
    pyTruthyStrB r.text

/-- `parse_reviews`. -/
def parse_reviews (page : Page) (page_url : String) (sel : Selectors) : List Review :=
  (page.select sel.container).filterMap
    (fun c =>
      if reviewTruthy (extractReview sel page_url c) then
        some (extractReview sel page_url c)
      else none)

/-! ### Pagination (`find_next_url`) -/

/-- A truthy `href` attribute. -/
def hrefOf (e : Elem) : Option String :=
  pyTruthy (attrGetE e "href")

/-- Strategy 1: the user-configured next selector (`if sel_next:` skips
`None` and `""`), when it matches an element with a truthy href. -/
def step1Href (page : Page) (selNext : Option String) : Option String :=
  match selNext with
  | none => none
  | some s =>
    if s = "" then none
    else
      match page.selectOneTop s with
      | none => none
      | some n => hrefOf n

/-- `soup.select_one("a[rel='next'], link[rel='next']")`: first element
in document order with tag `a` or `link` and attribute `rel` equal to
`next`. -/
def relNextElem (page : Page) : Option Elem :=
  page.elems.find?
    (fun e => (e.tag = "a" ∨ e.tag = "link") ∧ attrGetE e "rel" = some "next")

/-- Strategy 2: that element's truthy href, if any. -/
def step2Href (page : Page) : Option String :=
  match relNextElem page with
  | none => none
  | some n => hrefOf n

def isWordChar (c : Char) : Bool := c.isAlphanum || c = '_'

/-- Case-insensitive prefix match (the word is given in lower case);
returns the rest of the text after the match. -/
def startsWithCI : List Char → List Char → Option (List Char)
  | [], l => some l
  | _ :: _, [] => none
  | c :: cs, x :: xs => if x.toLower = c then startsWithCI cs xs else none

/-- Word-boundary search for one word, tracking the preceding
character. -/
def hasWordCIAux (w : List Char) (preceding : Option Char) : List Char → Bool
  | [] => false
  | x :: xs =>
    (match startsWithCI w (x :: xs) with
     | some rest =>
       (match preceding with
        | none => true
        | some p => !isWordChar p) &&
       (match rest.head? with
        | none => true
        | some c => !isWordChar c)
     | none => false)
    || hasWordCIAux w (some x) xs

def hasWordCI (w : List Char) (l : List Char) : Bool :=
  hasWordCIAux w none l

/-- The filter `string=re.compile(r"\b(Next|Older|More)\b", re.I)`:
matches when the element's `.string` exists and contains one of the
words (ASCII case folding). -/
def nextWordMatch : Option String → Bool
  | none => false
  | some t =>
    hasWordCI "next".data t.data || hasWordCI "older".data t.data ||
      hasWordCI "more".data t.data

/-- `soup.find_all("a", string=...)` in document order. -/
def nextTextCandidates (page : Page) : List Elem :=
  page.elems.filter (fun e => e.tag = "a" ∧ nextWordMatch e.str = true)

/-- Strategy 3: the first candidate anchor with a truthy href. -/
def step3Href (page : Page) : Option String :=
  (nextTextCandidates page).findSome? hrefOf

/-- The Yelp-fallback guard: `"yelp.com" in netloc and "/biz/" in path`. -/
def yelpCond (page_url : String) : Bool :=
  let u := urlparse page_url ""
  strContains u.netloc "yelp.com" && strContains u.path "/biz/"

/-- `q.get("start", ["0"])[0]` (a `parse_qs` value list is never empty,
so the `headD` default is unreachable). -/
def yelpStartString (page_url : String) : String :=
  match dictGet (parse_qs (urlparse page_url "").query) "start" with
  | none => "0"
  | some vs => vs.headD "0"

/-- The current URL with its `start` query parameter replaced by `v`
(shared by the Yelp fallback and the offline offset heuristic, whose
code is identical). -/
def withStartParam (base : String) (v : ℤ) : String :=
  let u := urlparse base ""
  urlunparse
    { scheme := u.scheme, netloc := u.netloc, path := u.path, params := u.params,
      query :=
        urlencode
          ((dictSet (parse_qs u.query) "start" [toString v]).map
            (fun p => (p.1, p.2.headD ""))),
      fragment := u.fragment }

/-- Strategy 4, the Yelp offset fallback.  `Except.error` models the
uncaught `ValueError` of `int(...)` on a non-numeric `start` value. -/
def yelpFallback (page_url : String) : Except Unit (Option String) :=
  if yelpCond page_url then
    match pythonInt (yelpStartString page_url) with
    | none => Except.error ()
    | some start => Except.ok (some (withStartParam page_url (start + 20)))
  else Except.ok none

/-- `find_next_url`: the four strategies in order, first match wins;
every resolved href is joined against the page URL. -/
def find_next_url (page : Page) (page_url : String) (selNext : Option String) :
    Except Unit (Option String) :=
  match step1Href page selNext with
  | some h => Except.ok (some (urljoin page_url h))
  | none =>
    match step2Href page with
    | some h => Except.ok (some (urljoin page_url h))
    | none =>
      match step3Href page with
      | some h => Except.ok (some (urljoin page_url h))
      | none => yelpFallback page_url

/-! ### Fetch retry loop -/

/-- What one `session.get` call does: raise a `RequestException` or
return a response with a status code and body. -/
inductive Outcome where
  | exc : Outcome
  | resp (status : ℕ) (body : String) : Outcome

def retryStatuses : List ℕ := [429, 500, 502, 503, 504, 403]

def isSuccess (s : ℕ) : Bool := 200 ≤ s && s < 300

/-- An outcome that makes the loop sleep and retry. -/
def isRetryOutcome : Outcome → Bool
  | Outcome.exc => true
  | Outcome.resp s _ => !isSuccess s && decide (s ∈ retryStatuses)

/-- Result of `fetch`: the returned body (or `None`), the number of
attempts made, and the backoff sleeps performed, in order.  Sleep
durations are modelled as the exact rationals `backoff ^ attempt`
(`1.8 = 9/5`). -/
structure FetchResult where
  body : Option String
  attempts : ℕ
  sleeps : List ℚ
deriving DecidableEq

/-- The `for attempt in range(1, max_retries + 1)` loop, with `rem`
iterations remaining. -/
def fetchAux (tr : ℕ → Outcome) (backoff : ℚ) : ℕ → ℕ → FetchResult
  | _, 0 => ⟨none, 0, []⟩
  | attempt, rem + 1 =>
    match tr attempt with
    | Outcome.resp s b =>
      if isSuccess s then ⟨some b, 1, []⟩
      else if s ∈ retryStatuses then
        let r := fetchAux tr backoff (attempt + 1) rem
        ⟨r.body, r.attempts + 1, backoff ^ attempt :: r.sleeps⟩
      else ⟨none, 1, []⟩
    | Outcome.exc =>
      let r := fetchAux tr backoff (attempt + 1) rem
      ⟨r.body, r.attempts + 1, backoff ^ attempt :: r.sleeps⟩

/-- `fetch` with its default arguments (`max_retries=4`, `backoff=1.8`);
the network is an oracle giving the outcome of each attempt.  Every
outcome is handled, so the function is total: no failure reaches the
caller. -/
def fetch (tr : ℕ → Outcome) : FetchResult :=
  fetchAux tr (9 / 5) 1 4

/-- The attempt numbers in the window `[attempt, attempt+rem)` that the
loop retries past: the run of consecutive retry outcomes. -/
def retryRun (tr : ℕ → Outcome) : ℕ → ℕ → List ℕ
  | _, 0 => []
  | attempt, rem + 1 =>
    if isRetryOutcome (tr attempt) then attempt :: retryRun tr (attempt + 1) rem
    else []

/-- The attempt numbers `a, a+1, ..., a+n-1`. -/
def natRange (a : ℕ) : ℕ → List ℕ
  | 0 => []
  | n + 1 => a :: natRange (a + 1) n

/-! ### Online driver loop -/

/-- Observable outcome of the online loop: the URLs fetched in order,
the accumulated records, and whether an uncaught exception escaped from
`find_next_url`. -/
structure RunResult where
  fetched : List String
  reviews : List Review
  crashed : Bool
deriving DecidableEq

/-- The `for page_idx in range(1, pages + 1)` loop of `main` (online
mode).  `net url = none` models `fetch` returning `None` or an empty
body (`if not html`). -/
def runPages (net : String → Option Page) (sel : Selectors) (selNext : Option String) :
    ℕ → String → List String → List Review → List String → RunResult
  | 0, _, _, acc, f => ⟨f, acc, false⟩
  | fuel + 1, url, seen, acc, f =>
    if url = "" ∨ url ∈ seen then ⟨f, acc, false⟩
    else
      match net url with
      | none => ⟨f ++ [url], acc, false⟩
      | some page =>
        match find_next_url page url selNext with
        | Except.error _ => ⟨f ++ [url], acc ++ parse_reviews page url sel, true⟩
        | Except.ok none => ⟨f ++ [url], acc ++ parse_reviews page url sel, false⟩
        | Except.ok (some nu) =>
          if nu = "" then ⟨f ++ [url], acc ++ parse_reviews page url sel, false⟩
          else
            runPages net sel selNext fuel nu (url :: seen)
              (acc ++ parse_reviews page url sel) (f ++ [url])

/-! ### Offline mode source URLs -/

/-- `os.path.basename` on a POSIX path. -/
def basenameChars (l : List Char) : List Char :=
  match splitLast '/' l with
  | some p => p.2
  | none => l

/-- The stem of `os.path.splitext`: drop the extension at the last dot
when some earlier character of the name is not a dot. -/
def splitextStem (name : List Char) : List Char :=
  match splitLast '.' name with
  | none => name
  | some p => if p.1.any (fun c => c ≠ '.') then p.1 else name

def fileStem (fp : String) : List Char :=
  splitextStem (basenameChars fp.data)

/-- The match of `re.search(r'(\d+)\D*$', stem)`: the last maximal digit
run, which the regex finds since it must be followed by non-digits only. -/
def trailingRun (l : List Char) : Option (List Char) :=
  let revDigits := (l.reverse.dropWhile (fun c => !c.isDigit)).takeWhile Char.isDigit
  if revDigits = [] then none else some revDigits.reverse

/-- The offset heuristic: `max(0, (n - 1) * 20)` for trailing number
`n`, else `0`.  The `except ValueError` branch (unreachable: the match
is a digit run) is modelled by the `none` case of `pythonInt`. -/
def offlineOffset (fp : String) : ℤ :=
  match trailingRun (fileStem fp) with
  | none => 0
  | some ds =>
    match pythonInt (String.mk ds) with
    | some n => max 0 ((n - 1) * 20)
    | none => 0

/-- The synthetic source URL of an offline file: a `file:///` URL from
the (abstracted) absolute path when no base URL is given, else the base
URL with its `start` parameter set to the offset heuristic.  (On POSIX
`os.sep` is `/`, so the `replace(os.sep, '/')` in the source is the
identity.) -/
def offline_source_url (abspathOf : String → String) (base fp : String) : String :=
  if base = "" then "file:///" ++ abspathOf fp
  else withStartParam base (offlineOffset fp)

/-! ### Concrete test documents -/

/-- A page whose only element is `<a rel="next" href="/p2">`. -/
def pageRelNext : Page :=
  { select := fun _ => []
    selectOneTop := fun _ => none
    elems := [{ tag := "a", attrs := [("rel", "next"), ("href", "/p2")], str := some "2" }] }

/-- A page with no elements at all. -/
def emptyPage : Page :=
  { select := fun _ => []
    selectOneTop := fun _ => none
    elems := [] }

/-- A page on which the user selector `a.next` matches an anchor with
href `/n`. -/
def w1page : Page :=
  { select := fun _ => []
    selectOneTop := fun s =>
      if s = "a.next" then some { tag := "a", attrs := [("href", "/n")], str := none }
      else none
    elems := [] }

/-- A rating node whose `aria-label` reads `0`. -/
def zeroRatingNode : Node :=
  { attrs := [("aria-label", "0")], textStrip := "", textSpace := "" }

def zeroRatingContainer : Container :=
  { selOne := fun s => if s = "div.rating" then some zeroRatingNode else none }

def c3page : Page :=
  { select := fun s => if s = "div.review" then [zeroRatingContainer] else []
    selectOneTop := fun _ => none
    elems := [] }

def c3sel : Selectors :=
  { container := "div.review", reviewer := "", rating := "div.rating", date := "", text := "" }

/-- A container whose selector `p.t` yields the text `hi`. -/
def wNode : Node := { attrs := [], textStrip := "hi", textSpace := "hi" }

def wContainer : Container :=
  { selOne := fun s => if s = "p.t" then some wNode else none }

def wPage : Page :=
  { select := fun s => if s = "cards" then [wContainer] else []
    selectOneTop := fun _ => none
    elems := [] }

def wSel : Selectors :=
  { container := "cards", reviewer := "", rating := "", date := "", text := "p.t" }

/-- Two-page fixture site: page 1 has 20 review cards and a
`rel="next"` link to `/p2`, page 2 has 5 cards and no next link. -/
def fxNode (t : String) : Node := { attrs := [], textStrip := t, textSpace := t }

def fxContainer (t : String) : Container :=
  { selOne := fun s => if s = "span.user" then some (fxNode t) else none }

def fxSel : Selectors :=
  { container := "div.review", reviewer := "span.user", rating := "", date := "", text := "" }

def fxPage1 : Page :=
  { select := fun s =>
      if s = "div.review" then (List.range 20).map (fun i => fxContainer (toString i))
      else []
    selectOneTop := fun _ => none
    elems := [{ tag := "a", attrs := [("rel", "next"), ("href", "/p2")], str := some "Next" }] }

def fxPage2 : Page :=
  { select := fun s =>
      if s = "div.review" then (List.range 5).map (fun i => fxContainer (toString i))
      else []
    selectOneTop := fun _ => none
    elems := [] }

def fxNet : String → Option Page := fun u =>
  if u = "https://site.example/p1" then some fxPage1
  else if u = "https://site.example/p2" then some fxPage2
  else none

/-- The online driver run on the fixture site with `--pages 3`. -/
def fxRun : RunResult :=
  runPages fxNet fxSel none 3 "https://site.example/p1" [] [] []

/-! ### Helper lemmas -/

theorem filterMap_if_eq {α β : Type} (f : α → β) (p : β → Bool) (l : List α) :
    (l.filterMap fun c => if p (f c) then some (f c) else none)
      = (l.filter fun c => p (f c)).map f := by
  induction l with
  | nil => rfl
  | cons a t ih =>
    cases h : p (f a) <;>
      simp [List.filterMap_cons, List.filter_cons, h, ih]

theorem parse_reviews_eq (page : Page) (page_url : String) (sel : Selectors) :
    parse_reviews page page_url sel
      = ((page.select sel.container).filter
          (fun c => reviewTruthy (extractReview sel page_url c))).map
          (extractReview sel page_url) :=
  filterMap_if_eq (extractReview sel page_url) reviewTruthy _

theorem mem_parse_reviews {page : Page} {page_url : String} {sel : Selectors}
    {r : Review} (h : r ∈ parse_reviews page page_url sel) :
    ∃ c ∈ page.select sel.container, r = extractReview sel page_url c := by
  rw [parse_reviews_eq] at h
  rcases List.mem_map.mp h with ⟨c, hc, rfl⟩
  exact ⟨c, (List.mem_filter.mp hc).1, rfl⟩

theorem pyTruthyStrB_get_text (o : Option Node) :
    pyTruthyStrB (get_text_or_none o) = false ↔ get_text_or_none o = none := by
  cases o with
  | none => simp [get_text_or_none, pyTruthyStrB]
  | some n =>
    by_cases h : n.textStrip = "" <;>
      simp [get_text_or_none, pyTruthyStrB, h]

theorem pyTruthyStrB_extractField (c : Container) (s : String) :
    pyTruthyStrB (extractField c s) = false ↔ extractField c s = none := by
  unfold extractField
  by_cases hs : s = ""
  · simp [hs, pyTruthyStrB]
  · simp only [hs, if_false]
    exact pyTruthyStrB_get_text _

theorem pyTruthyRat_iff (o : Option ℚ) :
    pyTruthyRat o = false ↔ o = none ∨ o = some 0 := by
  cases o with
  | none => simp [pyTruthyRat]
  | some q =>
    by_cases h : q = 0 <;> simp [pyTruthyRat, h]

/-! ### Claims -/

/-- C1: `find_next_url` resolves the next page by trying, in order with
the first match winning: (1) the configured next selector matching an
element with a (truthy) href; (2) the `a[rel='next'], link[rel='next']`
element with a (truthy) href; (3) the first anchor whose `.string` text
contains the word `Next`, `Older` or `More` case-insensitively and that
has a (truthy) href; (4) the site-specific offset fallback, which
returns `none` when its host/path guard fails.  Every resolved href is
joined against the page URL with `urljoin`; in particular a page
containing `<a rel="next" href="/p2">` at `https://x.com/p1` resolves
to `https://x.com/p2`. -/
theorem C1_next_url_resolution :
    (∀ (page : Page) (page_url : String) (sn : Option String) (h : String),
        step1Href page sn = some h →
        find_next_url page page_url sn = Except.ok (some (urljoin page_url h)))
  ∧ (∀ (page : Page) (page_url : String) (sn : Option String) (h : String),
        step1Href page sn = none → step2Href page = some h →
        find_next_url page page_url sn = Except.ok (some (urljoin page_url h)))
  ∧ (∀ (page : Page) (page_url : String) (sn : Option String) (h : String),
        step1Href page sn = none → step2Href page = none →
        step3Href page = some h →
        find_next_url page page_url sn = Except.ok (some (urljoin page_url h)))
  ∧ (∀ (page : Page) (page_url : String) (sn : Option String),
        step1Href page sn = none → step2Href page = none →
        step3Href page = none →
        find_next_url page page_url sn = yelpFallback page_url)
  ∧ (∀ (page : Page) (page_url : String) (sn : Option String),
        step1Href page sn = none → step2Href page = none →
        step3Href page = none → yelpCond page_url = false →
        find_next_url page page_url sn = Except.ok none)
  ∧ find_next_url pageRelNext "https://x.com/p1" none
      = Except.ok (some "https://x.com/p2") := by
  refine ⟨?_, ?_, ?_, ?_, ?_, ?_⟩
  · intro page page_url sn h h1
    simp [find_next_url, h1]
  · intro page page_url sn h h1 h2
    simp [find_next_url, h1, h2]
  · intro page page_url sn h h1 h2 h3
    simp [find_next_url, h1, h2, h3]
  · intro page page_url sn h1 h2 h3
    simp [find_next_url, h1, h2, h3]
  · intro page page_url sn h1 h2 h3 h4
    simp [find_next_url, h1, h2, h3, yelpFallback, h4]
  · rfl

/-- C1 witness: on a concrete page whose configured selector `a.next`
matches an anchor with href `/n`, strategy 1 fires. -/
theorem C1_witness :
    find_next_url w1page "https://x.com/a" (some "a.next")
      = Except.ok (some (urljoin "https://x.com/a" "/n")) :=
  C1_next_url_resolution.1 w1page "https://x.com/a" (some "a.next") "/n" rfl

/-- C2: when no next-link strategy matched and the URL passes the
`yelp.com`/`/biz/` guard, `find_next_url` produces the same URL with
the `start` query parameter incremented by 20, a missing `start`
reading as `"0"`; in particular `https://yelp.com/biz/x?start=20`
resolves to `https://yelp.com/biz/x?start=40`. -/
theorem C2_yelp_offset_fallback :
    (∀ (page : Page) (page_url : String) (sn : Option String) (k : ℤ),
        step1Href page sn = none → step2Href page = none →
        step3Href page = none → yelpCond page_url = true →
        pythonInt (yelpStartString page_url) = some k →
        find_next_url page page_url sn
          = Except.ok (some (withStartParam page_url (k + 20))))
  ∧ (∀ page_url : String,
        dictGet (parse_qs (urlparse page_url "").query) "start" = none →
        yelpStartString page_url = "0")
  ∧ find_next_url emptyPage "https://yelp.com/biz/x?start=20" none
      = Except.ok (some "https://yelp.com/biz/x?start=40") := by
  refine ⟨?_, ?_, ?_⟩
  · intro page page_url sn k h1 h2 h3 h4 h5
    simp [find_next_url, h1, h2, h3, yelpFallback, h4, h5]
  · intro page_url h
    simp [yelpStartString, h]
  · rfl

/-- C2 witness: strategy hypotheses discharged on the empty page at a
`/biz/` URL with no query, whose `start` reads as 0. -/
theorem C2_witness :
    find_next_url emptyPage "https://yelp.com/biz/w" none
      = Except.ok (some (withStartParam "https://yelp.com/biz/w" (0 + 20))) :=
  C2_yelp_offset_fallback.1 emptyPage "https://yelp.com/biz/w" none 0 rfl rfl rfl
    rfl rfl

/-- C5: `parse_rating` returns the value of the first decimal number
matched by `(\d+(?:\.\d+)?)`, and `None` for `None`, empty or
number-free input, never raising; `"4.5 star rating"` gives `4.5`,
`"Closed"` and `""` give `None`. -/
theorem C5_rating_parse :
    (∀ (s : String) (ip fp : List Char), firstNumber s.data = some (ip, fp) →
        parse_rating (some s) = some (ratOfDecimal ip fp))
  ∧ (∀ s : String, firstNumber s.data = none → parse_rating (some s) = none)
  ∧ parse_rating none = none
  ∧ parse_rating (some "") = none
  ∧ parse_rating (some "4.5 star rating") = some (9 / 2)
  ∧ parse_rating (some "Closed") = none := by
  refine ⟨?_, ?_, rfl, rfl, ?_, rfl⟩
  · intro s ip fp h
    by_cases hs : s = ""
    · subst hs
      exact absurd h (by simp [firstNumber])
    · simp [parse_rating, hs, h]
  · intro s h
    by_cases hs : s = ""
    · subst hs; rfl
    · simp [parse_rating, hs, h]
  · have h1 : firstNumber ("4.5 star rating").data = some (['4'], ['5']) := rfl
    have h2 : parse_rating (some "4.5 star rating")
        = some (ratOfDecimal ['4'] ['5']) := by
      simp [parse_rating, h1]
    rw [h2]
    have h3 : digitsToNat ['4'] = 4 := rfl
    have h4 : digitsToNat ['5'] = 5 := rfl
    norm_num [ratOfDecimal, h3, h4]

/-- C5 witness: the general clause applied to the input `7 reviews`. -/
theorem C5_witness :
    parse_rating (some "7 reviews") = some (ratOfDecimal ['7'] []) :=
  C5_rating_parse.1 "7 reviews" ['7'] [] rfl

/-- C3 counterexample: a container whose only extracted field is a
rating of `0.0` (aria-label `0`) has a non-`None` field, yet
`parse_reviews` drops it — `any([...])` tests Python truthiness, not
`None`-ness. -/
theorem C3_zero_rating_counterexample :
    parse_reviews c3page "https://u.example/" c3sel = []
  ∧ (extractReview c3sel "https://u.example/" zeroRatingContainer).rating = some 0
  ∧ (extractReview c3sel "https://u.example/" zeroRatingContainer).rating ≠ none := by
  have hval : ratOfDecimal ['0'] [] = 0 := by
    have hd : digitsToNat ['0'] = 0 := rfl
    have he : digitsToNat ([] : List Char) = 0 := rfl
    rw [ratOfDecimal, hd, he]
    norm_num
  have hrat : (extractReview c3sel "https://u.example/" zeroRatingContainer).rating
      = some 0 := by
    show parse_rating (ratingRaw zeroRatingContainer c3sel.rating) = some 0
    have h1 : ratingRaw zeroRatingContainer c3sel.rating = some "0" := rfl
    rw [h1]
    have h2 : parse_rating (some "0") = some (ratOfDecimal ['0'] []) := rfl
    rw [h2, hval]
  have htr : reviewTruthy (extractReview c3sel "https://u.example/" zeroRatingContainer)
      = false := by
    have hrev : (extractReview c3sel "https://u.example/" zeroRatingContainer).reviewer
        = none := rfl
    have hdate : (extractReview c3sel "https://u.example/" zeroRatingContainer).date
        = none := rfl
    have htext : (extractReview c3sel "https://u.example/" zeroRatingContainer).text
        = none := rfl
    unfold reviewTruthy
    rw [hrev, hdate, htext, hrat]
    simp [pyTruthyStrB, pyTruthyRat]
  refine ⟨?_, hrat, by rw [hrat]; exact fun h => Option.noConfusion h⟩
  show (c3page.select c3sel.container).filterMap _ = []
  rw [show c3page.select c3sel.container = [zeroRatingContainer] from rfl]
  simp [List.filterMap_cons, htr]

/-- C3 (amended): a container is dropped iff all four extracted fields
are Python-falsy — reviewer, date and text `None`, and rating `None` or
`0.0`; every container with at least one truthy field contributes
exactly one record, and every record's `source_url` is the page URL. -/
theorem C3_container_drop_amended :
    (∀ (page : Page) (page_url : String) (sel : Selectors),
        parse_reviews page page_url sel
          = ((page.select sel.container).filter
              (fun c => reviewTruthy (extractReview sel page_url c))).map
              (extractReview sel page_url))
  ∧ (∀ (page : Page) (page_url : String) (sel : Selectors) (r : Review),
        r ∈ parse_reviews page page_url sel → r.source_url = page_url)
  ∧ (∀ (page_url : String) (sel : Selectors) (c : Container),
        reviewTruthy (extractReview sel page_url c) = false ↔
          ((extractReview sel page_url c).reviewer = none ∧
           ((extractReview sel page_url c).rating = none ∨
             (extractReview sel page_url c).rating = some 0) ∧
           (extractReview sel page_url c).date = none ∧
           (extractReview sel page_url c).text = none)) := by
  refine ⟨parse_reviews_eq, ?_, ?_⟩
  · intro page page_url sel r hr
    rcases mem_parse_reviews hr with ⟨c, _, rfl⟩
    rfl
  · intro page_url sel c
    show (pyTruthyStrB (extractField c sel.reviewer) ||
            pyTruthyRat (parse_rating (ratingRaw c sel.rating)) ||
            pyTruthyStrB (extractField c sel.date) ||
            pyTruthyStrB (extractField c sel.text)) = false ↔ _
    simp only [Bool.or_eq_false_iff]
    rw [pyTruthyStrB_extractField, pyTruthyStrB_extractField,
      pyTruthyStrB_extractField, pyTruthyRat_iff]
    show (((extractReview sel page_url c).reviewer = none ∧ _) ∧ _) ∧ _ ↔ _
    tauto

/-- C3 witness: a record produced by a truthy container has the page
URL as its `source_url`. -/
theorem C3_amended_witness :
    (extractReview wSel "https://w.example/" wContainer).source_url
      = "https://w.example/" :=
  C3_container_drop_amended.2.1 wPage "https://w.example/" wSel
    (extractReview wSel "https://w.example/" wContainer) (by decide)

/-- C4: when the selector for a field (reviewer, rating, date or text)
is empty, every record produced by `parse_reviews` has that field
`None`. -/
theorem C4_missing_selector_fields :
    ∀ (page : Page) (page_url : String) (sel : Selectors),
      (sel.reviewer = "" → ∀ r ∈ parse_reviews page page_url sel, r.reviewer = none)
    ∧ (sel.rating = "" → ∀ r ∈ parse_reviews page page_url sel, r.rating = none)
    ∧ (sel.date = "" → ∀ r ∈ parse_reviews page page_url sel, r.date = none)
    ∧ (sel.text = "" → ∀ r ∈ parse_reviews page page_url sel, r.text = none) := by
  intro page page_url sel
  refine ⟨?_, ?_, ?_, ?_⟩ <;> intro hs r hr <;>
    rcases mem_parse_reviews hr with ⟨c, _, rfl⟩
  · show extractField c sel.reviewer = none
    rw [hs]
    simp [extractField]
  · show parse_rating (ratingRaw c sel.rating) = none
    rw [hs]
    simp [ratingRaw, parse_rating]
  · show extractField c sel.date = none
    rw [hs]
    simp [extractField]
  · show extractField c sel.text = none
    rw [hs]
    simp [extractField]

/-- C4 witness: a concrete record produced without a reviewer selector
has no reviewer. -/
theorem C4_witness :
    (extractReview wSel "https://w.example/" wContainer).reviewer = none :=
  (C4_missing_selector_fields wPage "https://w.example/" wSel).1 rfl
    (extractReview wSel "https://w.example/" wContainer) (by decide)

/-- Invariant of the online loop: when the already-fetched URLs are
distinct and all recorded in `seen`, the final fetch trace is
duplicate-free. -/
theorem runPages_fetched_nodup (net : String → Option Page) (sel : Selectors)
    (sn : Option String) :
    ∀ (fuel : ℕ) (url : String) (seen : List String) (acc : List Review)
      (f : List String), f.Nodup → (∀ u, u ∈ f → u ∈ seen) →
      ((runPages net sel sn fuel url seen acc f).fetched).Nodup := by
  intro fuel
  induction fuel with
  | zero =>
    intro url seen acc f hnd _
    simpa [runPages] using hnd
  | succ n ih =>
    intro url seen acc f hnd hsub
    by_cases h : url = "" ∨ url ∈ seen
    · simpa [runPages, h] using hnd
    · have hun : url ∉ f := fun hm => h (Or.inr (hsub url hm))
      have hnd' : (f ++ [url]).Nodup := by
        rw [List.nodup_append]
        refine ⟨hnd, List.nodup_singleton url, ?_⟩
        intro a ha hb
        rcases List.mem_singleton.mp hb with rfl
        exact hun ha
      have hsub' : ∀ u, u ∈ f ++ [url] → u ∈ url :: seen := by
        intro u hu
        rcases List.mem_append.mp hu with hu | hu
        · exact List.mem_cons_of_mem _ (hsub u hu)
        · rcases List.mem_singleton.mp hu with rfl
          exact List.mem_cons_self _ _
      rw [runPages, if_neg h]
      cases hnet : net url with
      | none => simpa using hnd'
      | some page =>
        cases hfn : find_next_url page url sn with
        | error e =>
          simp only [hfn]
          simpa using hnd'
        | ok o =>
          cases o with
          | none =>
            simp only [hfn]
            simpa using hnd'
          | some nu =>
            by_cases hnu : nu = ""
            · simp only [hfn]
              simpa [hnu] using hnd'
            · simp only [hfn]
              simpa [hnu] using
                ih nu (url :: seen) (acc ++ parse_reviews page url sel)
                  (f ++ [url]) hnd' hsub'

/-- C6: the loop never fetches a URL twice — the fetch trace of a run
is duplicate-free; an absent (empty) or already-visited URL stops the
loop with no further fetch; and when next-page resolution returns the
current URL, the loop terminates after that single fetch. -/
theorem C6_visited_guard :
    (∀ (net : String → Option Page) (sel : Selectors) (sn : Option String)
        (fuel : ℕ) (url : String),
        ((runPages net sel sn fuel url [] [] []).fetched).Nodup)
  ∧ (∀ (net : String → Option Page) (sel : Selectors) (sn : Option String)
        (fuel : ℕ) (url : String) (seen : List String) (acc : List Review)
        (f : List String), (url = "" ∨ url ∈ seen) →
        runPages net sel sn fuel url seen acc f = ⟨f, acc, false⟩)
  ∧ (∀ (net : String → Option Page) (sel : Selectors) (sn : Option String)
        (rem : ℕ) (url : String) (seen : List String) (acc : List Review)
        (f : List String) (page : Page),
        ¬(url = "" ∨ url ∈ seen) → net url = some page →
        find_next_url page url sn = Except.ok (some url) →
        runPages net sel sn (rem + 1) url seen acc f
          = ⟨f ++ [url], acc ++ parse_reviews page url sel, false⟩) := by
  refine ⟨?_, ?_, ?_⟩
  · intro net sel sn fuel url
    exact runPages_fetched_nodup net sel sn fuel url [] [] [] List.nodup_nil
      (fun u hu => absurd hu (List.not_mem_nil u))
  · intro net sel sn fuel url seen acc f h
    cases fuel with
    | zero => rfl
    | succ n => rw [runPages, if_pos h]
  · intro net sel sn rem url seen acc f page h hnet hfn
    have hurl : ¬ url = "" := fun he => h (Or.inl he)
    have hseen : url ∉ seen := fun hm => h (Or.inr hm)
    cases rem with
    | zero =>
      simp [runPages, h, hnet, hfn, hurl, hseen]
    | succ m =>
      simp [runPages, h, hnet, hfn, hurl, hseen, List.mem_cons_self]

/-- C6 witness: a start URL already in the visited set stops the loop
immediately, with no fetch. -/
theorem C6_witness :
    runPages (fun _ => none) wSel none 5 "https://a.example/"
      ["https://a.example/"] [] [] = ⟨[], [], false⟩ :=
  C6_visited_guard.2.1 (fun _ => none) wSel none 5 "https://a.example/"
    ["https://a.example/"] [] [] (Or.inr (by decide))

/-- The retry loop makes at most as many attempts as it has iterations
left. -/
theorem fetchAux_attempts_le (tr : ℕ → Outcome) (b : ℚ) :
    ∀ (rem a : ℕ), (fetchAux tr b a rem).attempts ≤ rem := by
  intro rem
  induction rem with
  | zero => intro a; simp [fetchAux]
  | succ n ih =>
    intro a
    rw [fetchAux]
    cases tr a with
    | exc => exact Nat.succ_le_succ (ih (a + 1))
    | resp s bd =>
      by_cases hs : isSuccess s
      · simp [hs]
      · by_cases hr : s ∈ retryStatuses
        · simpa [hs, hr] using Nat.succ_le_succ (ih (a + 1))
        · simp [hs, hr]

/-- The sleeps performed are exactly `backoff ^ i` for the initial run
of retry outcomes in the attempt window. -/
theorem fetchAux_sleeps (tr : ℕ → Outcome) (b : ℚ) :
    ∀ (rem a : ℕ),
      (fetchAux tr b a rem).sleeps = (retryRun tr a rem).map (fun i => b ^ i) := by
  intro rem
  induction rem with
  | zero => intro a; simp [fetchAux, retryRun]
  | succ n ih =>
    intro a
    rw [fetchAux, retryRun]
    cases htr : tr a with
    | exc =>
      simp [isRetryOutcome, htr, ih (a + 1)]
    | resp s bd =>
      by_cases hs : isSuccess s
      · simp [isRetryOutcome, htr, hs]
      · by_cases hr : s ∈ retryStatuses
        · simp [isRetryOutcome, htr, hs, hr, ih (a + 1)]
        · simp [isRetryOutcome, htr, hs, hr]

/-- When every attempt in the window is a retry outcome, no body is
returned. -/
theorem fetchAux_body_none (tr : ℕ → Outcome) (b : ℚ) :
    ∀ (rem a : ℕ), (∀ i, a ≤ i → i < a + rem → isRetryOutcome (tr i) = true) →
      (fetchAux tr b a rem).body = none := by
  intro rem
  induction rem with
  | zero => intro a _; simp [fetchAux]
  | succ n ih =>
    intro a hall
    have ha : isRetryOutcome (tr a) = true :=
      hall a (Nat.le_refl a) (Nat.lt_of_lt_of_le (Nat.lt_succ_self a) (by omega))
    have hnext : ∀ i, a + 1 ≤ i → i < (a + 1) + n → isRetryOutcome (tr i) = true := by
      intro i h1 h2
      exact hall i (Nat.le_of_succ_le h1) (by omega)
    rw [fetchAux]
    cases htr : tr a with
    | exc => simpa using ih (a + 1) hnext
    | resp s bd =>
      have hs : isSuccess s = false ∧ s ∈ retryStatuses := by
        rw [htr] at ha
        unfold isRetryOutcome at ha
        simpa using ha
      simpa [hs.1, hs.2] using ih (a + 1) hnext

/-- After `j` consecutive retry outcomes the loop's result is decided
by the response at attempt `a + j`: its body on a 2xx status, `None`
otherwise, with one backoff sleep per retried attempt. -/
theorem fetchAux_after_retries (tr : ℕ → Outcome) (q : ℚ) (s : ℕ) (bd : String) :
    ∀ (rem j a : ℕ), j < rem →
      (∀ i, a ≤ i → i < a + j → isRetryOutcome (tr i) = true) →
      tr (a + j) = Outcome.resp s bd →
      isRetryOutcome (Outcome.resp s bd) = false →
      fetchAux tr q a rem
        = ⟨if isSuccess s then some bd else none, j + 1,
           (natRange a j).map (fun i => q ^ i)⟩ := by
  intro rem
  induction rem with
  | zero => intro j a hj _ _ _; exact absurd hj (Nat.not_lt_zero j)
  | succ n ih =>
    intro j a hj hpre htr hnr
    cases j with
    | zero =>
      rw [Nat.add_zero] at htr
      rw [fetchAux]
      simp only [htr]
      cases hs : isSuccess s with
      | true => simp [hs, natRange]
      | false =>
        have hmem : s ∉ retryStatuses := by
          simp [isRetryOutcome, hs] at hnr
          exact hnr
        simp [hs, hmem, natRange]
    | succ m =>
      have hra : isRetryOutcome (tr a) = true := hpre a (Nat.le_refl a) (by omega)
      have hpre2 : ∀ i, a + 1 ≤ i → i < (a + 1) + m → isRetryOutcome (tr i) = true :=
        fun i h1 h2 => hpre i (by omega) (by omega)
      have htr2 : tr ((a + 1) + m) = Outcome.resp s bd := by
        rw [show (a + 1) + m = a + (m + 1) by omega]
        exact htr
      have hrec := ih m (a + 1) (by omega) hpre2 htr2 hnr
      rw [fetchAux]
      cases hta : tr a with
      | exc => simp [hta, hrec, natRange]
      | resp s2 bd2 =>
        rw [hta] at hra
        have hs2 : isSuccess s2 = false ∧ s2 ∈ retryStatuses := by
          unfold isRetryOutcome at hra
          simpa using hra
        simp [hta, hs2.1, hs2.2, hrec, natRange]

/-- A returned body always comes from a 2xx response, reached after a
run of retryable attempts. -/
theorem fetchAux_body_some (tr : ℕ → Outcome) (q : ℚ) (b : String) :
    ∀ (rem a : ℕ), (fetchAux tr q a rem).body = some b →
      ∃ k s, a ≤ k ∧ k < a + rem ∧ tr k = Outcome.resp s b ∧
        isSuccess s = true ∧
        ∀ i, a ≤ i → i < k → isRetryOutcome (tr i) = true := by
  intro rem
  induction rem with
  | zero => intro a h; exact absurd h (by simp [fetchAux])
  | succ n ih =>
    intro a h
    rw [fetchAux] at h
    cases hta : tr a with
    | exc =>
      simp only [hta] at h
      obtain ⟨k, s, h1, h2, h3, h4, h5⟩ := ih (a + 1) h
      refine ⟨k, s, by omega, by omega, h3, h4, ?_⟩
      intro i hi1 hi2
      by_cases hia : i = a
      · rw [hia, hta]; rfl
      · exact h5 i (by omega) hi2
    | resp s2 bd2 =>
      simp only [hta] at h
      cases hs : isSuccess s2 with
      | true =>
        simp only [hs, if_true] at h
        obtain rfl : bd2 = b := by simpa using h
        exact ⟨a, s2, Nat.le_refl a, by omega, hta, hs,
          fun i h1 h2 => absurd h2 (by omega)⟩
      | false =>
        by_cases hmem : s2 ∈ retryStatuses
        · simp only [hs, hmem] at h
          simp only [if_true, if_false, Bool.false_eq_true] at h
          obtain ⟨k, s, h1, h2, h3, h4, h5⟩ := ih (a + 1) (by simpa using h)
          refine ⟨k, s, by omega, by omega, h3, h4, ?_⟩
          intro i hi1 hi2
          by_cases hia : i = a
          · rw [hia, hta]
            simp [isRetryOutcome, hs, hmem]
          · exact h5 i (by omega) hi2
        · simp [hs, hmem] at h

/-- C7: `fetch` makes at most 4 attempts.  For every trace: after any
run of consecutive retryable attempts (network exception, or status in
{429,500,502,503,504,403}), a 2xx response at attempt `k ≤ 4` returns
its body, with attempt count `k` and one backoff sleep `1.8 ^ i` per
retried attempt `i < k`; any other status at attempt `k` likewise
returns `None` immediately, with no further retry; the sleeps of an
arbitrary run are exactly `1.8 ^ i` over the initial run of retryable
attempts; a trace whose four attempts are all retryable yields `None`;
and a body is only ever returned from a 2xx response — every failure
mode results in `None`, never an exception reaching the caller. -/
theorem C7_fetch_retry_policy :
    (∀ tr, (fetch tr).attempts ≤ 4)
  ∧ (∀ (tr : ℕ → Outcome) (s : ℕ) (b : String) (k : ℕ),
        1 ≤ k → k ≤ 4 →
        (∀ i, 1 ≤ i → i < k → isRetryOutcome (tr i) = true) →
        tr k = Outcome.resp s b → isSuccess s = true →
        fetch tr = ⟨some b, k, (natRange 1 (k - 1)).map (fun i => (9 / 5 : ℚ) ^ i)⟩)
  ∧ (∀ (tr : ℕ → Outcome) (s : ℕ) (b : String) (k : ℕ),
        1 ≤ k → k ≤ 4 →
        (∀ i, 1 ≤ i → i < k → isRetryOutcome (tr i) = true) →
        tr k = Outcome.resp s b → isSuccess s = false → s ∉ retryStatuses →
        fetch tr = ⟨none, k, (natRange 1 (k - 1)).map (fun i => (9 / 5 : ℚ) ^ i)⟩)
  ∧ (∀ tr, (fetch tr).sleeps = (retryRun tr 1 4).map (fun i => (9 / 5 : ℚ) ^ i))
  ∧ (∀ tr, (∀ i, 1 ≤ i → i ≤ 4 → isRetryOutcome (tr i) = true) →
        (fetch tr).body = none)
  ∧ (∀ (tr : ℕ → Outcome) (b : String), (fetch tr).body = some b →
        ∃ k s, 1 ≤ k ∧ k ≤ 4 ∧ tr k = Outcome.resp s b ∧ isSuccess s = true ∧
          ∀ i, 1 ≤ i → i < k → isRetryOutcome (tr i) = true) := by
  refine ⟨?_, ?_, ?_, ?_, ?_, ?_⟩
  · intro tr
    exact fetchAux_attempts_le tr (9 / 5) 4 1
  · intro tr s b k hk1 hk4 hpre htr hs
    obtain ⟨j, rfl⟩ : ∃ j, k = 1 + j := ⟨k - 1, by omega⟩
    have h := fetchAux_after_retries tr (9 / 5) s b 4 j 1 (by omega)
      (fun i h1 h2 => hpre i h1 (by omega)) htr (by simp [isRetryOutcome, hs])
    have e1 : 1 + j - 1 = j := by omega
    rw [fetch, h, e1]
    simp [hs, Nat.add_comm]
  · intro tr s b k hk1 hk4 hpre htr hs hmem
    obtain ⟨j, rfl⟩ : ∃ j, k = 1 + j := ⟨k - 1, by omega⟩
    have h := fetchAux_after_retries tr (9 / 5) s b 4 j 1 (by omega)
      (fun i h1 h2 => hpre i h1 (by omega)) htr
      (by simp [isRetryOutcome, hs, hmem])
    have e1 : 1 + j - 1 = j := by omega
    rw [fetch, h, e1]
    simp [hs, Nat.add_comm]
  · intro tr
    exact fetchAux_sleeps tr (9 / 5) 4 1
  · intro tr h
    exact fetchAux_body_none tr (9 / 5) 4 1 (fun i h1 h2 => h i h1 (by omega))
  · intro tr b h
    rw [fetch] at h
    obtain ⟨k, s, h1, h2, h3, h4, h5⟩ := fetchAux_body_some tr (9 / 5) b 4 1 h
    exact ⟨k, s, h1, by omega, h3, h4, h5⟩

/-- C7 witness: the trace 503-then-404 — one retryable status, then a
terminal status on attempt 2 — returns `None` after exactly 2 attempts
and one backoff sleep. -/
theorem C7_witness :
    fetch (fun i => if i = 1 then Outcome.resp 503 "a" else Outcome.resp 404 "b")
      = ⟨none, 2, [(9 / 5 : ℚ) ^ 1]⟩ := by
  have h := C7_fetch_retry_policy.2.2.1
    (fun i => if i = 1 then Outcome.resp 503 "a" else Outcome.resp 404 "b")
    404 "b" 2 (by omega) (by omega)
    (fun i h1 h2 => by
      have hi : i = 1 := by omega
      subst hi
      decide)
    rfl rfl (by decide)
  simpa [natRange] using h

/-- C8 counterexample: for `reviews_0.html` the code writes `start=0`,
not the `start=-20` that the claim's formula `(n - 1) * 20` gives — the
source clamps the offset with `max(0, ...)`. -/
theorem C8_zero_trailing_counterexample :
    offline_source_url (fun _ => "") "https://x.com/biz/y" "reviews_0.html"
        = "https://x.com/biz/y?start=0"
  ∧ offline_source_url (fun _ => "") "https://x.com/biz/y" "reviews_0.html"
        ≠ "https://x.com/biz/y?start=-20" := by
  refine ⟨rfl, ?_⟩
  intro h
  rw [show offline_source_url (fun _ => "") "https://x.com/biz/y" "reviews_0.html"
      = "https://x.com/biz/y?start=0" from rfl] at h
  exact absurd h (by decide)

/-- C8 (amended): without a base URL the source URL is the `file:///`
URL of the absolute path; with a base URL it is the base with `start`
overridden by `max(0, (n - 1) * 20)` for trailing filename number `n`,
defaulting to 0 when the stem has no digits; `reviews_3.html` with base
`https://x.com/biz/y` gives `start=40`. -/
theorem C8_offline_source_amended :
    (∀ (af : String → String) (fp : String),
        offline_source_url af "" fp = "file:///" ++ af fp)
  ∧ (∀ (af : String → String) (base fp : String), base ≠ "" →
        offline_source_url af base fp = withStartParam base (offlineOffset fp))
  ∧ (∀ (fp : String) (ds : List Char) (n : ℤ),
        trailingRun (fileStem fp) = some ds →
        pythonInt (String.mk ds) = some n →
        offlineOffset fp = max 0 ((n - 1) * 20))
  ∧ (∀ fp : String, trailingRun (fileStem fp) = none → offlineOffset fp = 0)
  ∧ offline_source_url (fun _ => "") "https://x.com/biz/y" "reviews_3.html"
      = "https://x.com/biz/y?start=40" := by
  refine ⟨?_, ?_, ?_, ?_, rfl⟩
  · intro af fp
    simp [offline_source_url]
  · intro af base fp h
    simp [offline_source_url, h]
  · intro fp ds n h1 h2
    simp [offlineOffset, h1, h2]
  · intro fp h
    simp [offlineOffset, h]

/-- C8 witness: the base-URL clause applied to a concrete file name. -/
theorem C8_witness :
    offline_source_url (fun _ => "") "https://b.example/l" "f_2.html"
      = withStartParam "https://b.example/l" (offlineOffset "f_2.html") :=
  C8_offline_source_amended.2.1 (fun _ => "") "https://b.example/l" "f_2.html"
    (by decide)

/-- C9: on the two-page fixture site, running the online loop with a
page limit of 3 accumulates exactly 25 records, fetches exactly the two
page URLs in order, and stops without a third fetch. -/
theorem C9_two_page_run :
    fxRun.reviews.length = 25
  ∧ fxRun.fetched = ["https://site.example/p1", "https://site.example/p2"]
  ∧ fxRun.crashed = false := by
  refine ⟨?_, ?_, ?_⟩ <;> rfl

/-- C10: the synthesized offline `start` offset is `max(0, (n-1)*20)`,
hence never negative — a trailing file number 0 yields `start=0`, not
`-20` — and with a base URL the start value written into the source URL
is exactly this non-negative offset. -/
theorem C10_offset_nonneg :
    (∀ fp : String, 0 ≤ offlineOffset fp)
  ∧ offlineOffset "reviews_0.html" = 0
  ∧ (∀ (af : String → String) (base fp : String), base ≠ "" →
        offline_source_url af base fp = withStartParam base (offlineOffset fp)) := by
  refine ⟨?_, rfl, ?_⟩
  · intro fp
    unfold offlineOffset
    cases h1 : trailingRun (fileStem fp) with
    | none => simp [h1]
    | some ds =>
      cases h2 : pythonInt (String.mk ds) with
      | none => simp [h1, h2]
      | some n => simp [h1, h2, le_max_left]
  · intro af base fp h
    simp [offline_source_url, h]

/-- C10 witness: the base-URL clause applied to a digit-free file
name. -/
theorem C10_witness :
    offline_source_url (fun _ => "") "https://c.example/q" "a.html"
      = withStartParam "https://c.example/q" (offlineOffset "a.html") :=
  C10_offset_nonneg.2.2 (fun _ => "") "https://c.example/q" "a.html" (by decide)

end MultiScraper
